import Mathlib

/-!
Shallow embedding of the `sessions` package (github.com/bentranter/sessions),
translated from `session.go` as shipped in the repository (the version that
carries `quiet`, `TemplMiddleware` and `FlashesCtx`).

Conventions of the embedding:

* Go values of type `interface\x7b\x7d` stored in a session are an abstract
  type `V`; the absent value (`nil` interface) is `none : Option V`.
* A non-nil Go `map[string]interface\x7b\x7d` is an association list `SMap V`
  with the usual last-write-wins update; a *nil* Go map is
  `none : Option (SMap V)`.  Reading from a nil map yields the zero value
  (absent); assigning into a nil map is a runtime panic, which fallible
  operations model by returning `none`.
* Functions receiving pointers (`*http.Request`, `http.ResponseWriter`)
  return the updated value explicitly (Go `saveCtx` overwrites `*r`).
* The securecookie codec is an external collaborator and is kept opaque: a
  `Session` carries `encode`/`decode` functions with the cookie name baked
  in, standing for `s.sc.Encode(s.name, v)` and `s.sc.Decode(s.name, c, &v)`.
  On a decode error the code calls `init` on the freshly allocated record,
  which the embedding renders as the fully empty initialized record.
-/

namespace Sessions

/-- A list of request paths (the variadic `paths ...string` argument).
Named so that it stays usable inside the `Session` namespace, where the
bare name `List` would resolve to the accessor `Session.List`. -/
abbrev StrList : Type := List String

/-- An entry list standing for a non-nil Go `map[string]interface\x7b\x7d`. -/
def SMap (V : Type) : Type := List (String × V)

/-- Map read `m[k]` on a non-nil Go map. -/
def mget {V : Type} : SMap V → String → Option V
  | [], _ => none
  | (a, v) :: t, k => if k = a then some v else mget t k

/-- Go `delete(m, k)` on a non-nil map: the key is no longer bound. -/
def mdel {V : Type} : SMap V → String → SMap V
  | [], _ => []
  | p :: t, k => if p.1 = k then mdel t k else p :: mdel t k

/-- Go `m[k] = v` on a non-nil map: bind `k` to `v`, keep other keys. -/
def mset {V : Type} (l : SMap V) (k : String) (v : V) : SMap V :=
  (k, v) :: mdel l k

/-- Read `m[k]` where `m` may be a nil Go map (reads from a nil map succeed
and yield the zero value, i.e. absent). -/
def nmget {V : Type} : Option (SMap V) → String → Option V
  | none, _ => none
  | some l, k => mget l k

/-- `defaultSessionName` from the source. -/
def defaultSessionName : String := "_session"

/-- `defaultMaxAge = 86400 * 365` from the source (seconds in one year). -/
def defaultMaxAge : Int := 86400 * 365

/-- `Options` to customize the behaviour of the session (zero value is
`Options\x7b\x7d`, i.e. empty name, max-age `0`, quiet `false`). -/
structure Options where
  Name : String
  MaxAge : Int
  Quiet : Bool

/-- The observable configuration produced by `New`: the cookie name and
quiet flag stored on the returned `Session`, together with the max-age
installed into the securecookie codec through `sc.MaxAge(o.MaxAge)`.
Per the securecookie convention quoted by the `Options` documentation,
a codec max-age of `0` means expiry checking is disabled. -/
structure Config where
  name : String
  scMaxAge : Int
  quiet : Bool

/-- `New(secret, opts...)`: the last variadic option wins over the zero
value; an empty name falls back to `defaultSessionName`; `MaxAge` `0`
becomes one year and `-1` becomes `0` (no expiry), any other value is
passed to the codec unchanged. -/
def New (opts : List Options) : Config :=
  let o := opts.foldl (fun _ opt => opt) ⟨"", 0, false⟩
  let name := if o.Name = "" then defaultSessionName else o.Name
  let maxAge := if o.MaxAge = 0 then defaultMaxAge else if o.MaxAge = -1 then 0 else o.MaxAge
  ⟨name, maxAge, o.Quiet⟩

/-- The `session` record: two string-keyed maps, either of which may be a
nil Go map (`none`). -/
structure session (V : Type) where
  Data : Option (SMap V)
  Flashes : Option (SMap V)

/-- `session.init`: ensure both underlying maps are initialized (non-nil). -/
def session.init {V : Type} (s : session V) : session V :=
  ⟨some (s.Data.getD []), some (s.Flashes.getD [])⟩

/-- The attributes of the `http.Cookie` literal built by `saveCtx` and
`TemplMiddleware`.  `expiresOffset` stands for the `Expires` attribute as
seconds added to the current UTC instant (`time.Now().UTC().Add(...)`). -/
structure Cookie where
  name : String
  value : String
  maxAge : Int
  expiresOffset : Int
  path : String
  httpOnly : Bool
  secure : Bool

/-- The response writer, reduced to its observable effect here: the list of
`Set-Cookie` headers appended through `http.SetCookie`. -/
structure Response where
  setCookies : List Cookie

/-- `true` when some `Set-Cookie` header on the response carries the given
cookie name. -/
def hasSetCookie (w : Response) (n : String) : Bool :=
  w.setCookies.any (fun c => decide (c.name = n))

/-- An inbound `*http.Request`: the context value under the private session
key, the cookie header entries, and the URL path. -/
structure Request (V : Type) where
  ctxSession : Option (session V)
  cookies : List (String × String)
  path : String

/-- `r.Cookie(name)`: the first request cookie with the given name, or the
`ErrNoCookie` failure rendered as `none`. -/
def Request.cookie {V : Type} (r : Request V) (n : String) : Option String :=
  (r.cookies.find? (fun p => decide (p.1 = n))).map Prod.snd

/-- The session manager.  `encode`/`decode` are the opaque securecookie
codec specialized to the manager's cookie name. -/
structure Session (V : Type) where
  encode : session V → Option String
  decode : String → Option (session V)
  name : String
  quiet : Bool

/-- Pair a `Config` produced by `New` with a codec instance, yielding the
manager `New` returns. -/
def mkSession {V : Type} (cfg : Config) (enc : session V → Option String)
    (dec : String → Option (session V)) : Session V :=
  ⟨enc, dec, cfg.name, cfg.quiet⟩

/-- The cookie-reading path of `fromReq` (everything after the context
fastpath): a missing cookie or a decode error yields a freshly initialized
empty record, while a successful decode returns the decoded record as-is
(without `init`). -/
def Session.decodeReq {V : Type} (s : Session V) (r : Request V) : session V :=
  match r.cookie s.name with
  | none => session.init ⟨none, none⟩
  | some cv =>
    match s.decode cv with
    | none => session.init ⟨none, none⟩
    | some ss => ss

/-- `fromReq`: return the record already carried by the request context if
present, otherwise read it from the cookie. -/
def Session.fromReq {V : Type} (s : Session V) (r : Request V) : session V :=
  match r.ctxSession with
  | some ss => ss
  | none => s.decodeReq r

/-- `saveCtx`: attach the record to the request context (Go clones the
request with the derived context and overwrites `*r`), then encode it; on
encode failure log (unless quiet) and return without a cookie, on success
append the `Set-Cookie` header with the fixed one-year attributes. -/
def Session.saveCtx {V : Type} (s : Session V) (w : Response) (r : Request V)
    (ss : session V) : Response × Request V :=
  match s.encode ss with
  | none => (w, { r with ctxSession := some ss })
  | some encoded =>
    ({ setCookies := w.setCookies ++
        [{ name := s.name, value := encoded, maxAge := defaultMaxAge,
           expiresOffset := defaultMaxAge, path := "/", httpOnly := true,
           secure := true }] },
     { r with ctxSession := some ss })

/-- `Get`: read-only accessor; returns `data.Data[key]` and leaves the
request untouched (no `saveCtx`). -/
def Session.Get {V : Type} (s : Session V) (r : Request V) (key : String) :
    Option V × Request V :=
  (nmget (s.fromReq r).Data key, r)

/-- `List`: read-only accessor; returns the (possibly nil) persistent-data
map itself and leaves the request untouched. -/
def Session.List {V : Type} (s : Session V) (r : Request V) :
    Option (SMap V) × Request V :=
  ((s.fromReq r).Data, r)

/-- `Set`: upsert into the persistent data, then commit.  `none` models the
Go runtime panic raised by `data.Data[key] = value` when `Data` is a nil
map (reachable because `decodeReq` skips `init` on decode success). -/
def Session.Set {V : Type} (s : Session V) (w : Response) (r : Request V)
    (key : String) (value : V) : Option (Response × Request V) :=
  let data := s.fromReq r
  match data.Data with
  | none => none
  | some d => some (s.saveCtx w r { data with Data := some (mset d key value) })

/-- `Delete`: read the prior value, `delete` the key (a no-op on a nil
map), commit, and return the prior value. -/
def Session.Delete {V : Type} (s : Session V) (w : Response) (r : Request V)
    (key : String) : Option V × Response × Request V :=
  let data := s.fromReq r
  let value := nmget data.Data key
  let wr := s.saveCtx w r { data with Data := data.Data.map (fun d => mdel d key) }
  (value, wr.1, wr.2)

/-- `Reset`: commit a record with two fresh empty maps. -/
def Session.Reset {V : Type} (s : Session V) (w : Response) (r : Request V) :
    Response × Request V :=
  s.saveCtx w r ⟨some [], some []⟩

/-- `Flash`: upsert into the flash data, then commit.  `none` models the Go
panic from assigning into a nil `Flashes` map. -/
def Session.Flash {V : Type} (s : Session V) (w : Response) (r : Request V)
    (key : String) (value : V) : Option (Response × Request V) :=
  let data := s.fromReq r
  match data.Flashes with
  | none => none
  | some f => some (s.saveCtx w r { data with Flashes := some (mset f key value) })

/-- `Flashes`: copy the flash map (iterating a nil map yields nothing),
replace the flash map with a fresh empty one, commit, return the copy. -/
def Session.Flashes {V : Type} (s : Session V) (w : Response) (r : Request V) :
    SMap V × Response × Request V :=
  let data := s.fromReq r
  let values := data.Flashes.getD []
  let wr := s.saveCtx w r { data with Flashes := some [] }
  (values, wr.1, wr.2)

/-- Flash a whole list of pairs in sequence (left to right), propagating
the panic of any individual `Flash`. -/
def flashMany {V : Type} (s : Session V) (w : Response) (r : Request V)
    (ps : List (String × V)) : Option (Response × Request V) :=
  ps.foldl (fun acc p => acc.bind (fun wr => s.Flash wr.1 wr.2 p.1 p.2)) (some (w, r))

/-- The `responseWrapper` of the buffered middleware: `b` is the byte
buffer holding redirected body writes, `c` the captured status code
(initialized to `200`). -/
structure responseWrapper where
  b : String
  c : Int

/-- `Write`: body bytes go into the buffer, not the wire. -/
def responseWrapper.Write (rw : responseWrapper) (data : String) : responseWrapper :=
  { rw with b := rw.b ++ data }

/-- `WriteHeader`: capture the status code without forwarding it. -/
def responseWrapper.WriteHeader (rw : responseWrapper) (statusCode : Int) : responseWrapper :=
  { rw with c := statusCode }

/-- `Flush`: the status code and body that get written to the real
response writer. -/
def responseWrapper.Flush (rw : responseWrapper) : Int × String :=
  (rw.c, rw.b)

/-- A handler wrapped by `TemplMiddleware`: it observes the session record
attached to the request context (mutating it in place) and drives the
wrapped response writer. -/
def THandler (V : Type) : Type := session V → responseWrapper → responseWrapper × session V

/-- What reaches the real `http.ResponseWriter` once `TemplMiddleware`
returns: the status written by `Flush` (`none` when `Flush` was never
called), the body bytes copied out of the buffer, the `Set-Cookie` headers
the middleware added, and whether the encode-failure message was logged. -/
structure MWResult where
  status : Option Int
  body : String
  setCookies : List Cookie
  loggedEncodeFailure : Bool

/-- `TemplMiddleware`: decode the session from the cookie once, run the
handler against the buffering wrapper and the context-carrying request,
then encode the (possibly handler-mutated) record.  On encode failure the
code logs (unless quiet) and returns — nothing is flushed.  On success it
sets the session cookie and flushes the captured status and body. -/
def Session.TemplMiddleware {V : Type} (s : Session V) (next : THandler V)
    (r : Request V) : MWResult :=
  let sess0 := s.decodeReq r
  let hres := next sess0 { b := "", c := 200 }
  match s.encode hres.2 with
  | none => { status := none, body := "", setCookies := [], loggedEncodeFailure := !s.quiet }
  | some encoded =>
    { status := some hres.1.Flush.1, body := hres.1.Flush.2,
      setCookies :=
        [{ name := s.name, value := encoded, maxAge := defaultMaxAge,
           expiresOffset := defaultMaxAge, path := "/", httpOnly := true,
           secure := true }],
      loggedEncodeFailure := false }

/-- `FlashesCtx`: given only a context, copy the flashes of the attached
record (nothing when the record holds a nil flash map), clear the live
flash map in place (`clear` of a nil map is a no-op), and return the copy
together with the updated attachment.  Without an attached record it warns
(unless quiet) and returns an empty mapping; the third component records
whether the warning was printed. -/
def Session.FlashesCtx {V : Type} (s : Session V) (ctxSession : Option (session V)) :
    SMap V × Option (session V) × Bool :=
  match ctxSession with
  | some ss =>
    (ss.Flashes.getD [], some { ss with Flashes := ss.Flashes.map (fun _ => []) }, false)
  | none => ([], none, !s.quiet)

/-- Modelled from the spec: the optional skip-path parameter of
`TemplMiddleware` (the variadic form `TemplMiddleware(next, paths...)`
exercised by the repository tests) is not part of the sources under `src`.
Per the spec, paths in the exclusion set are excluded from session
decoding/attachment, so the wrapped handler runs under the request's
original context; any other path gets the decoded record attached exactly
as `TemplMiddleware` does.  This function gives the context attachment the
wrapped handler observes. -/
def Session.middlewareCtxSession {V : Type} (s : Session V) (skips : StrList)
    (r : Request V) : Option (session V) :=
  if r.path ∈ skips then r.ctxSession else some (s.decodeReq r)

/-! ### Map lemmas -/

theorem mget_mdel {V : Type} (l : SMap V) (a k : String) :
    mget (mdel l a) k = if k = a then none else mget l k := by
  induction l with
  | nil => simp [mdel, mget]
  | cons p t ih =>
    simp only [mdel]
    by_cases hpa : p.1 = a
    · rw [if_pos hpa, ih]
      by_cases hk : k = a
      · simp [hk]
      · rw [if_neg hk, if_neg hk]
        have hkp : ¬ k = p.1 := fun h => hk (h.trans hpa)
        simp [mget, hkp]
    · rw [if_neg hpa]
      by_cases hk : k = p.1
      · have hka : ¬ k = a := fun h => hpa ((hk.symm.trans h))
        simp [mget, hk, hka, hpa]
      · simp [mget, hk, ih]

theorem mget_mset {V : Type} (l : SMap V) (a : String) (v : V) (k : String) :
    mget (mset l a v) k = if k = a then some v else mget l k := by
  by_cases hk : k = a
  · simp [mset, mget, hk]
  · simp [mset, mget, hk, mget_mdel]

/-- Lookup in a left fold of `mset` updates over a list of pairs with
pairwise distinct keys. -/
theorem mget_foldl_mset {V : Type} (ps : List (String × V)) (l : SMap V)
    (hnd : (ps.map Prod.fst).Nodup) (k : String) (v : V) :
    mget (ps.foldl (fun acc p => mset acc p.1 p.2) l) k = some v
      ↔ (k, v) ∈ ps ∨ (k ∉ ps.map Prod.fst ∧ mget l k = some v) := by
  induction ps generalizing l with
  | nil => simp
  | cons p tl ih =>
    rw [List.map_cons] at hnd
    have hnd' := List.nodup_cons.mp hnd
    rw [List.foldl_cons, ih (mset l p.1 p.2) hnd'.2]
    constructor
    · rintro (hmem | ⟨hnk, hg⟩)
      · exact Or.inl (List.mem_cons_of_mem _ hmem)
      · rw [mget_mset] at hg
        by_cases hk : k = p.1
        · rw [if_pos hk] at hg
          refine Or.inl ?_
          have hv : v = p.2 := (Option.some.inj hg).symm
          have : (k, v) = p := by
            cases p; simp_all
          simp [this]
        · rw [if_neg hk] at hg
          refine Or.inr ⟨?_, hg⟩
          simp [hk, hnk]
    · rintro (hmem | ⟨hnk, hg⟩)
      · rcases List.mem_cons.mp hmem with heq | htl
        · refine Or.inr ⟨?_, ?_⟩
          · have hk : k = p.1 := by cases p; simp_all
            rw [hk]; exact hnd'.1
          · have hk : k = p.1 := by cases p; simp_all
            have hv : v = p.2 := by cases p; simp_all
            rw [mget_mset, if_pos hk, hv]
        · exact Or.inl htl
      · have hk : ¬ k = p.1 := by
          intro h; exact hnk (by simp [h])
        have hnk' : k ∉ tl.map Prod.fst := by
          intro h; exact hnk (by simp [h])
        exact Or.inr ⟨hnk', by rw [mget_mset, if_neg hk]; exact hg⟩

/-! ### Commit and cache lemmas -/

/-- Whatever the codec does, `saveCtx` replaces the request with one whose
context carries the committed record. -/
theorem saveCtx_snd {V : Type} (s : Session V) (w : Response) (r : Request V)
    (ss : session V) :
    (s.saveCtx w r ss).2 = { r with ctxSession := some ss } := by
  unfold Session.saveCtx
  cases s.encode ss <;> rfl

/-- On encode success, `saveCtx` appends exactly the fixed-attribute
session cookie. -/
theorem saveCtx_fst_encodeOk {V : Type} (s : Session V) (w : Response) (r : Request V)
    (ss : session V) (e : String) (h : s.encode ss = some e) :
    (s.saveCtx w r ss).1 =
      { setCookies := w.setCookies ++
          [{ name := s.name, value := e, maxAge := defaultMaxAge,
             expiresOffset := defaultMaxAge, path := "/", httpOnly := true,
             secure := true }] } := by
  unfold Session.saveCtx
  rw [h]

/-- The context fastpath of `fromReq`. -/
theorem fromReq_ctx {V : Type} (s : Session V) (r : Request V) (ss : session V)
    (h : r.ctxSession = some ss) : s.fromReq r = ss := by
  unfold Session.fromReq
  rw [h]

/-- Without a cached record, `fromReq` reads the cookie. -/
theorem fromReq_nocache {V : Type} (s : Session V) (r : Request V)
    (h : r.ctxSession = none) : s.fromReq r = s.decodeReq r := by
  unfold Session.fromReq
  rw [h]

/-- `Flash`, unfolded on a record whose flash map is non-nil. -/
theorem flash_eq {V : Type} (s : Session V) (w : Response) (r : Request V)
    (k : String) (v : V) (d : Option (SMap V)) (l : SMap V)
    (h : s.fromReq r = ⟨d, some l⟩) :
    s.Flash w r k v = some (s.saveCtx w r ⟨d, some (mset l k v)⟩) := by
  unfold Session.Flash
  rw [h]

/-- `Flashes`, unfolded. -/
theorem flashes_eq {V : Type} (s : Session V) (w : Response) (r : Request V)
    (d f : Option (SMap V)) (h : s.fromReq r = ⟨d, f⟩) :
    s.Flashes w r =
      (f.getD [], (s.saveCtx w r ⟨d, some []⟩).1, (s.saveCtx w r ⟨d, some []⟩).2) := by
  unfold Session.Flashes
  rw [h]

/-- Running `flashMany` from a record with a non-nil flash map never
panics, and the request it leaves behind caches exactly the folded flash
map (the persistent data is untouched). -/
theorem flashMany_fromReq {V : Type} (s : Session V) (ps : List (String × V)) :
    ∀ (w : Response) (r : Request V) (d : Option (SMap V)) (l : SMap V),
      s.fromReq r = ⟨d, some l⟩ →
      ∃ w1 r1, flashMany s w r ps = some (w1, r1) ∧
        s.fromReq r1 = ⟨d, some (ps.foldl (fun acc p => mset acc p.1 p.2) l)⟩ := by
  induction ps with
  | nil =>
    intro w r d l h
    exact ⟨w, r, rfl, h⟩
  | cons p tl ih =>
    intro w r d l h
    have hflash := flash_eq s w r p.1 p.2 d l h
    have hfr : s.fromReq (s.saveCtx w r ⟨d, some (mset l p.1 p.2)⟩).2
        = ⟨d, some (mset l p.1 p.2)⟩ :=
      fromReq_ctx _ _ _ (by rw [saveCtx_snd])
    obtain ⟨w1, r1, hrun, hend⟩ :=
      ih (s.saveCtx w r ⟨d, some (mset l p.1 p.2)⟩).1
         (s.saveCtx w r ⟨d, some (mset l p.1 p.2)⟩).2 d (mset l p.1 p.2) hfr
    refine ⟨w1, r1, ?_, hend⟩
    unfold flashMany
    rw [List.foldl_cons]
    have hstep : (some (w, r)).bind (fun wr => s.Flash wr.1 wr.2 p.1 p.2)
        = some (s.saveCtx w r ⟨d, some (mset l p.1 p.2)⟩) := by
      simpa using hflash
    rw [hstep]
    unfold flashMany at hrun
    exact hrun

/-! ### Claim theorems -/

/-- Failing input for claim C1: the codec decodes the inbound cookie to a
record whose `Data` map is nil, as happens to any cookie the library
itself committed with an empty `Data` map (gob omits zero-length maps, so
a cookie issued by `Reset` or by a flash-only commit decodes with both
maps nil). -/
def c1Session : Session String :=
  ⟨fun _ => some "enc", fun _ => some ⟨none, none⟩, "_session", false⟩

/-- A request presenting such a cookie, with no cached record. -/
def c1Request : Request String := ⟨none, [("_session", "resetcookie")], "/"⟩

/-- Claim C1 (code bug): on a request whose cookie decodes to a record with
a nil `Data` map, `fromReq` exposes the nil map (no `init` on the decode
success path) and `Set` panics on the nil-map assignment — so no value is
stored, no `Set-Cookie` header is emitted, and the claimed Set-then-Get
round trip fails for this request. -/
theorem c1_set_panics_on_nil_map_record :
    (Session.fromReq c1Session c1Request).Data = none ∧
    Session.Set c1Session ⟨[]⟩ c1Request "k" "v" = none :=
  ⟨rfl, rfl⟩

/-- Same failing input for claim C6. -/
def c6Session : Session String :=
  ⟨fun _ => some "enc", fun _ => some ⟨none, none⟩, "_session", false⟩

/-- A request presenting a successfully decoding cookie whose record has
nil maps. -/
def c6Request : Request String := ⟨none, [("_session", "resetcookie")], "/"⟩

/-- Claim C6 (code bug): a record obtained from a successful codec decode
is returned by `fromReq` without `init`, so a nil `Data` and nil `Flashes`
map are exposed to callers (`List` hands the nil map out directly),
contradicting the documented invariant. -/
theorem c6_decode_success_skips_init :
    (Session.fromReq c6Session c6Request).Data = none ∧
    (Session.fromReq c6Session c6Request).Flashes = none ∧
    (Session.List c6Session c6Request).1 = none :=
  ⟨rfl, rfl, rfl⟩

/-- Failing input for claim C3: a codec whose encode fails (as for a
session holding a value gob cannot serialize). -/
def c3Session : Session String := ⟨fun _ => none, fun _ => none, "_session", false⟩

/-- A handler that sets status 201 and writes a body. -/
def c3Handler : THandler String := fun ss rw => ((rw.WriteHeader 201).Write "hello", ss)

/-- A cookie-less request. -/
def c3Request : Request String := ⟨none, [], "/"⟩

/-- Claim C3 (code bug): when encoding the session after the wrapped
handler returns fails, `TemplMiddleware` logs the failure (unless quiet)
but then returns without calling `wrapper.Flush`: the buffered status
`201` and body `"hello"` never reach the real response writer (status
`none`, empty body), contradicting the claim that they still flush without
a session cookie. -/
theorem c3_encode_failure_skips_flush :
    Session.TemplMiddleware c3Session c3Handler c3Request
      = { status := none, body := "", setCookies := [], loggedEncodeFailure := true } :=
  rfl

/-- Claim C4, amended: on every commit where the codec encode succeeds, the
response cookie has the manager's configured name, path `/`, `HttpOnly`
and `Secure` — but a fixed one-year `Max-Age`/`Expires` pair rather than
the configured max-age. -/
theorem c4_cookie_attributes {V : Type} (opts : List Options)
    (enc : session V → Option String) (dec : String → Option (session V))
    (w : Response) (r : Request V) (ss : session V) (e : String)
    (henc : enc ss = some e) :
    ((mkSession (New opts) enc dec).saveCtx w r ss).1.setCookies
      = w.setCookies ++
        [{ name := (New opts).name, value := e, maxAge := 86400 * 365,
           expiresOffset := 86400 * 365, path := "/", httpOnly := true,
           secure := true }] := by
  rw [saveCtx_fst_encodeOk _ _ _ _ _ henc]
  rfl

/-- Options with a custom max-age of 100 seconds. -/
def c4CexOpts : List Options := [⟨"", 100, false⟩]

/-- Claim C4 as stated is false: with a configured max-age of 100 seconds,
the commit still emits a cookie whose `Max-Age` is the fixed one-year
value 31536000, not the manager's configured max-age. -/
theorem c4_configured_maxAge_counterexample :
    (New c4CexOpts).scMaxAge = 100 ∧
    ((mkSession (New c4CexOpts) (fun _ => some "e") (fun _ => none)).saveCtx ⟨[]⟩
        (⟨none, [], "/"⟩ : Request Nat) ⟨some [], some []⟩).1.setCookies.map Cookie.maxAge
      = [31536000] ∧
    (31536000 : Int) ≠ 100 :=
  ⟨rfl, rfl, by decide⟩

/-- Concrete instantiation data for the C4 witness. -/
def c4Opts : List Options := [⟨"mycookie", 7, true⟩]

/-- Witness for the amended claim C4 at a concrete input. -/
theorem c4_cookie_attributes_witness :
    ((mkSession (New c4Opts) (fun _ => some ("e" : String)) (fun _ => none)).saveCtx ⟨[]⟩
        (⟨none, [], "/"⟩ : Request Nat) ⟨some [], some []⟩).1.setCookies
      = ([] : List Cookie) ++
        [{ name := (New c4Opts).name, value := "e", maxAge := 86400 * 365,
           expiresOffset := 86400 * 365, path := "/", httpOnly := true,
           secure := true }] :=
  c4_cookie_attributes c4Opts (fun _ => some "e") (fun _ => none) ⟨[]⟩
    ⟨none, [], "/"⟩ ⟨some [], some []⟩ "e" rfl

/-- `TemplMiddleware`, unfolded on an encode success. -/
theorem templMiddleware_encodeOk {V : Type} (s : Session V) (next : THandler V)
    (r : Request V) (e2 : String)
    (h : s.encode (next (s.decodeReq r) ⟨"", 200⟩).2 = some e2) :
    s.TemplMiddleware next r =
      { status := some (next (s.decodeReq r) ⟨"", 200⟩).1.c,
        body := (next (s.decodeReq r) ⟨"", 200⟩).1.b,
        setCookies :=
          [{ name := s.name, value := e2, maxAge := defaultMaxAge,
             expiresOffset := defaultMaxAge, path := "/", httpOnly := true,
             secure := true }],
        loggedEncodeFailure := false } := by
  simp only [Session.TemplMiddleware]
  rw [h]
  rfl

/-- Claim C5: for every configuration handed to `New` (any max-age), both
the commit protocol (`saveCtx`) and the buffered middleware emit a
response cookie with the fixed one-year `Max-Age`/`Expires` pair
`86400 * 365`, never the configured max-age. -/
theorem c5_fixed_one_year {V : Type} (opts : List Options)
    (enc : session V → Option String) (dec : String → Option (session V))
    (w : Response) (r r2 : Request V) (ss : session V) (next : THandler V)
    (e e2 : String)
    (henc : enc ss = some e)
    (henc2 : enc (next ((mkSession (New opts) enc dec).decodeReq r2) ⟨"", 200⟩).2 = some e2) :
    ((mkSession (New opts) enc dec).saveCtx w r ss).1.setCookies.map
        (fun c => (c.maxAge, c.expiresOffset))
      = w.setCookies.map (fun c => (c.maxAge, c.expiresOffset)) ++ [(86400 * 365, 86400 * 365)]
    ∧ ((mkSession (New opts) enc dec).TemplMiddleware next r2).setCookies.map
        (fun c => (c.maxAge, c.expiresOffset))
      = [(86400 * 365, 86400 * 365)] := by
  constructor
  · rw [saveCtx_fst_encodeOk _ _ _ _ _ henc]
    simp [defaultMaxAge]
  · rw [templMiddleware_encodeOk _ _ _ _ henc2]
    simp [defaultMaxAge]

/-- Concrete instantiation data for the C5 witness. -/
def c5Opts : List Options := [⟨"n", 7, true⟩]

/-- Witness for claim C5 at a concrete input. -/
theorem c5_fixed_one_year_witness :
    ((mkSession (New c5Opts) (fun _ => some ("e" : String)) (fun _ => none)).saveCtx ⟨[]⟩
        (⟨none, [], "/"⟩ : Request Nat) ⟨some [], some []⟩).1.setCookies.map
        (fun c => (c.maxAge, c.expiresOffset))
      = ([] : List Cookie).map (fun c => (c.maxAge, c.expiresOffset)) ++ [(86400 * 365, 86400 * 365)]
    ∧ ((mkSession (New c5Opts) (fun _ => some ("e" : String)) (fun _ => none)).TemplMiddleware
        (fun ss rw => (rw, ss)) (⟨none, [], "/"⟩ : Request Nat)).setCookies.map
        (fun c => (c.maxAge, c.expiresOffset))
      = [(86400 * 365, 86400 * 365)] :=
  c5_fixed_one_year c5Opts (fun _ => some "e") (fun _ => none) ⟨[]⟩
    ⟨none, [], "/"⟩ ⟨none, [], "/"⟩ ⟨some [], some []⟩ (fun ss rw => (rw, ss)) "e" "e"
    rfl rfl

/-- The record `Delete` commits: the looked-up record with the key removed
from the persistent data. -/
def sessAfterDelete {V : Type} (s : Session V) (r : Request V) (k : String) : session V :=
  ⟨(s.fromReq r).Data.map (fun d => mdel d k), (s.fromReq r).Flashes⟩

/-- Claim C7: `Delete` returns the prior value of the key (the absent
sentinel when it was never bound), a `Get` on the request it leaves behind
returns absent, and — whether or not the key was present — the commit
re-encodes the record and, encode succeeding, emits a `Set-Cookie` header
with the manager's cookie name. -/
theorem c7_delete {V : Type} (s : Session V) (w : Response) (r : Request V)
    (k : String) (e : String)
    (henc : s.encode (sessAfterDelete s r k) = some e) :
    (s.Delete w r k).1 = nmget (s.fromReq r).Data k
    ∧ (s.Get (s.Delete w r k).2.2 k).1 = none
    ∧ hasSetCookie (s.Delete w r k).2.1 s.name = true := by
  have h2 : (s.Delete w r k).2.2
      = { r with ctxSession := some (sessAfterDelete s r k) } :=
    saveCtx_snd s w r (sessAfterDelete s r k)
  have h1 : (s.Delete w r k).2.1 = (s.saveCtx w r (sessAfterDelete s r k)).1 := rfl
  refine ⟨rfl, ?_, ?_⟩
  · show nmget (s.fromReq (s.Delete w r k).2.2).Data k = none
    rw [h2, fromReq_ctx _ _ _ rfl]
    show nmget ((s.fromReq r).Data.map (fun d => mdel d k)) k = none
    cases hD : (s.fromReq r).Data with
    | none => rfl
    | some d =>
      show mget (mdel d k) k = none
      rw [mget_mdel, if_pos rfl]
  · rw [h1, saveCtx_fst_encodeOk _ _ _ _ _ henc]
    simp [hasSetCookie]

/-- Concrete manager for the C7 witness. -/
def c7Session : Session String := ⟨fun _ => some "e", fun _ => none, "_session", false⟩

/-- Concrete request for the C7 witness: the key is present. -/
def c7Request : Request String := ⟨some ⟨some [("k", "v")], some []⟩, [], "/"⟩

/-- Witness for claim C7 at a concrete input. -/
theorem c7_delete_witness :
    (Session.Delete c7Session ⟨[]⟩ c7Request "k").1
        = nmget (Session.fromReq c7Session c7Request).Data "k"
    ∧ (Session.Get c7Session (Session.Delete c7Session ⟨[]⟩ c7Request "k").2.2 "k").1 = none
    ∧ hasSetCookie (Session.Delete c7Session ⟨[]⟩ c7Request "k").2.1 c7Session.name = true :=
  c7_delete c7Session ⟨[]⟩ c7Request "k" "e" rfl



/-- Claim C8 as stated is false: `New` maps the negative max-age `-2` to a
codec max-age of `-2`, not `0`, so expiry is not disabled (only `-1` is
translated to the no-expiry sentinel `0`). -/
theorem c8_negative_maxAge_counterexample :
    (New [⟨"", -2, false⟩]).scMaxAge = -2 ∧ ((-2 : Int) ≠ 0) :=
  ⟨rfl, by decide⟩

/-- Claim C8, amended: the max-age value `-1` supplied at construction
configures the codec with max-age `0`, disabling expiry. -/
theorem c8_minus_one_disables_expiry (name : String) (quiet : Bool) :
    (New [⟨name, -1, quiet⟩]).scMaxAge = 0 :=
  rfl

/-- Claim C9: the middleware takes an optional set of request paths to
exclude; a request to an excluded path runs under its original, unattached
context, and the context-only flash accessor called there observes an
empty flash view and leaves the context unattached. -/
theorem c9_excluded_path {V : Type} (s : Session V) (skips : StrList) (r : Request V)
    (h1 : r.path ∈ skips) (h2 : r.ctxSession = none) :
    s.middlewareCtxSession skips r = none
    ∧ (s.FlashesCtx (s.middlewareCtxSession skips r)).1 = []
    ∧ (s.FlashesCtx (s.middlewareCtxSession skips r)).2.1 = none := by
  have h : s.middlewareCtxSession skips r = none := by
    unfold Session.middlewareCtxSession
    rw [if_pos h1, h2]
  refine ⟨h, ?_, ?_⟩ <;> rw [h] <;> rfl

/-- Concrete manager for the C9 witness. -/
def c9Session : Session Nat := ⟨fun _ => some "e", fun _ => none, "_session", false⟩

/-- Concrete excluded-path request for the C9 witness. -/
def c9Request : Request Nat := ⟨none, [], "/skip-me"⟩

/-- Witness for claim C9 at a concrete input. -/
theorem c9_excluded_path_witness :
    Session.middlewareCtxSession c9Session ["/skip-me"] c9Request = none
    ∧ (Session.FlashesCtx c9Session
        (Session.middlewareCtxSession c9Session ["/skip-me"] c9Request)).1 = []
    ∧ (Session.FlashesCtx c9Session
        (Session.middlewareCtxSession c9Session ["/skip-me"] c9Request)).2.1 = none :=
  c9_excluded_path c9Session ["/skip-me"] c9Request (by simp [c9Request]) rfl

/-- Claim C10: on a request with no cached record, the read-only accessors
`Get` and `List` leave the request exactly as it was (in particular still
uncached, so each such call takes the cookie-decoding path anew), and the
cache is populated by the commit step `saveCtx`. -/
theorem c10_readonly_no_attach {V : Type} (s : Session V) (w : Response) (r : Request V)
    (k : String) (ss : session V) (h : r.ctxSession = none) :
    (s.Get r k).2 = r
    ∧ (s.List r).2 = r
    ∧ s.fromReq r = s.decodeReq r
    ∧ (s.saveCtx w r ss).2.ctxSession = some ss := by
  refine ⟨rfl, rfl, fromReq_nocache s r h, ?_⟩
  rw [saveCtx_snd]

/-- Concrete manager for the C10 witness. -/
def c10Session : Session Nat := ⟨fun _ => some "e", fun _ => none, "_session", false⟩

/-- Concrete uncached request for the C10 witness. -/
def c10Request : Request Nat := ⟨none, [("_session", "x")], "/"⟩

/-- Witness for claim C10 at a concrete input. -/
theorem c10_readonly_no_attach_witness :
    (Session.Get c10Session c10Request "k").2 = c10Request
    ∧ (Session.List c10Session c10Request).2 = c10Request
    ∧ Session.fromReq c10Session c10Request = Session.decodeReq c10Session c10Request
    ∧ (Session.saveCtx c10Session ⟨[]⟩ c10Request ⟨some [], some []⟩).2.ctxSession
        = some ⟨some [], some []⟩ :=
  c10_readonly_no_attach c10Session ⟨[]⟩ c10Request "k" ⟨some [], some []⟩ rfl

/-- Claim C2: starting from a request whose flash map is empty, flashing
any list of pairs with pairwise distinct keys succeeds, the first
`Flashes` call returns exactly those pairs, and a second consecutive
`Flashes` call returns an empty mapping. -/
theorem c2_flash_then_flashes {V : Type} (s : Session V) (w : Response) (r : Request V)
    (ps : List (String × V)) (d : Option (SMap V))
    (hf : s.fromReq r = ⟨d, some []⟩) (hnd : (ps.map Prod.fst).Nodup) :
    ∃ w1 r1, flashMany s w r ps = some (w1, r1)
      ∧ (∀ k v, mget (s.Flashes w1 r1).1 k = some v ↔ (k, v) ∈ ps)
      ∧ (s.Flashes (s.Flashes w1 r1).2.1 (s.Flashes w1 r1).2.2).1 = [] := by
  obtain ⟨w1, r1, hrun, hctx⟩ := flashMany_fromReq s ps w r d [] hf
  have hfl := flashes_eq s w1 r1 d (some (ps.foldl (fun acc p => mset acc p.1 p.2) [])) hctx
  refine ⟨w1, r1, hrun, ?_, ?_⟩
  · intro k v
    rw [hfl]
    show mget (ps.foldl (fun acc p => mset acc p.1 p.2) []) k = some v ↔ (k, v) ∈ ps
    rw [mget_foldl_mset ps [] hnd k v]
    simp [mget]
  · rw [hfl]
    have hctx2 : (s.saveCtx w1 r1 ⟨d, some []⟩).2.ctxSession = some ⟨d, some []⟩ := by
      rw [saveCtx_snd]
    have hfr2 : s.fromReq (s.saveCtx w1 r1 ⟨d, some []⟩).2 = ⟨d, some []⟩ :=
      fromReq_ctx _ _ _ hctx2
    rw [flashes_eq s _ _ d (some []) hfr2]
    rfl

/-- Concrete manager for the C2 witness. -/
def c2Session : Session Nat := ⟨fun _ => some "e", fun _ => none, "_session", false⟩

/-- Concrete fresh request for the C2 witness (no cookie, so `fromReq`
yields the initialized empty record). -/
def c2Request : Request Nat := ⟨none, [], "/"⟩

/-- Witness for claim C2 at a concrete input: two flashed pairs. -/
theorem c2_flash_then_flashes_witness :
    ∃ w1 r1, flashMany c2Session ⟨[]⟩ c2Request [("a", 1), ("b", 2)] = some (w1, r1)
      ∧ (∀ k v, mget (Session.Flashes c2Session w1 r1).1 k = some v
            ↔ (k, v) ∈ [("a", (1 : Nat)), ("b", 2)])
      ∧ (Session.Flashes c2Session (Session.Flashes c2Session w1 r1).2.1
          (Session.Flashes c2Session w1 r1).2.2).1 = [] :=
  c2_flash_then_flashes c2Session ⟨[]⟩ c2Request [("a", 1), ("b", 2)] (some []) rfl
    (by decide)

end Sessions
